import Mathlib

/-!
Verification of the Xero MCP security/session control plane against its
TypeScript source.  The embedding models, in order: the CryptoBox
(encrypt/decrypt with hex-encoded IV prefix), the MCP session manager and
the two dispatcher variants of getXeroClient, the OAuth state store and
the OAuth callback, the token vault (storeTokens/getValidTokens, current
and legacy variants), and the webhook ingestion pipeline.
-/

namespace XeroMCP

/- ### CryptoBox (src/unnamed/part_005, lines 32-47)

`encrypt` produces `iv.toString('hex') + ':' + <hex ciphertext>`; `decrypt`
splits on ':' and feeds the two hex-decoded halves to the block cipher.
The AES-256-CBC cipher itself is an external library call and is passed in
as a pair of functions `cipherE`/`cipherD` (iv and plaintext to ciphertext
bytes, and back). -/

/-- Lower-case hex digit for a nibble, as produced by Buffer.toString('hex'). -/
def hexDigit (n : Nat) : Char :=
  if n < 10 then Char.ofNat (48 + n) else Char.ofNat (87 + n)

/-- Hex encoding of a byte list (two lower-case digits per byte). -/
def hexEncode : List Nat → List Char
  | [] => []
  | b :: bs => hexDigit (b / 16) :: hexDigit (b % 16) :: hexEncode bs

/-- Value of one hex digit character, `none` on a non-hex-digit. -/
def hexDigitVal (c : Char) : Option Nat :=
  if 48 ≤ c.toNat ∧ c.toNat ≤ 57 then some (c.toNat - 48)
  else if 97 ≤ c.toNat ∧ c.toNat ≤ 102 then some (c.toNat - 87)
  else none

/-- Hex decoding back to bytes; `none` on odd length or invalid digit
(modelling Buffer.from(s, 'hex') on the well-formed inputs that arise here). -/
def hexDecode : List Char → Option (List Nat)
  | [] => some []
  | c1 :: c2 :: rest => do
      let hi ← hexDigitVal c1
      let lo ← hexDigitVal c2
      let tail ← hexDecode rest
      pure ((16 * hi + lo) :: tail)
  | [_] => none

/-- JS String.split(':') on a character list. -/
def splitColon : List Char → List (List Char)
  | [] => [[]]
  | c :: rest =>
      if c = ':' then [] :: splitColon rest
      else
        match splitColon rest with
        | [] => [[c]]
        | p :: ps => (c :: p) :: ps

/-- encrypt (src/unnamed/part_005 lines 32-38): hex IV, a colon, then the
hex ciphertext produced by the cipher for this IV and plaintext. -/
def encrypt (cipherE : List Nat → String → List Nat) (iv : List Nat)
    (text : String) : List Char :=
  hexEncode iv ++ ':' :: hexEncode (cipherE iv text)

/-- decrypt (src/unnamed/part_005 lines 40-47): destructures the first two
':'-separated parts as hex IV and hex ciphertext and runs the cipher
backwards; `none` models the throw when the shape is invalid. -/
def decrypt (cipherD : List Nat → List Nat → String)
    (encryptedText : List Char) : Option String :=
  match splitColon encryptedText with
  | ivHex :: encHex :: _ => do
      let iv ← hexDecode ivHex
      let ct ← hexDecode encHex
      pure (cipherD iv ct)
  | _ => none

/- ### MCP sessions (src/unnamed/part_004, lines 702-735) -/

/-- One mCPSession row. -/
structure MCPSession where
  sessionId : String
  accountId : String
  tenantId : Option String
  expiresAt : Int
deriving DecidableEq, Repr

/-- validateMCPSession (src/unnamed/part_004 lines 718-729): findUnique by
sessionId, then `if (!session || session.expiresAt < new Date()) return null`. -/
def validateMCPSession (sessions : List MCPSession) (now : Int)
    (sessionId : String) : Option MCPSession :=
  match sessions.find? (fun s => s.sessionId = sessionId) with
  | none => none
  | some s => if s.expiresAt < now then none else some s

/-- The (accountId, tenantId) pair handed to createXeroTenantClient; the
tenant is an Option because the in-memory variant can pass `undefined`
through its non-null assertion. -/
structure ClientReq where
  accountId : String
  tenantId : Option String
deriving DecidableEq, Repr

/-- getXeroClient, DB-session variant (src/app/api/health/route.ts lines
489-508): validates the session, rejects a provided tenantId that differs
from the session's bound tenantId, then resolves `tenantId || session.tenantId`
and requires it to be present. -/
def getXeroClient_db (sessions : List MCPSession) (now : Int)
    (sessionId : String) (tenantId : Option String) : Except String ClientReq :=
  match validateMCPSession sessions now sessionId with
  | none => .error "Invalid session"
  | some session =>
      match tenantId, session.tenantId with
      | some t, some t' =>
          if t ≠ t' then .error "Tenant ID does not match session"
          else .ok ⟨session.accountId, some t⟩
      | some t, none => .ok ⟨session.accountId, some t⟩
      | none, some t' => .ok ⟨session.accountId, some t'⟩
      | none, none => .error "Tenant ID required"

/-- One entry of the in-memory `sessions` Map of the second server variant. -/
structure MemSession where
  accountId : String
  tenantId : Option String
  expiresAt : Int
deriving DecidableEq, Repr

/-- getXeroClient, in-memory-session variant (src/app/api/health/route.ts
lines 1191-1199): looks the session up in the Map and passes
`tenantId || session.tenantId!` straight through — no tenant-mismatch check
and no expiry check. -/
def getXeroClient_mem (sessions : List (String × MemSession))
    (sessionId : String) (tenantId : Option String) : Except String ClientReq :=
  match (sessions.find? (fun p => p.1 = sessionId)).map Prod.snd with
  | none => .error "Invalid session"
  | some session => .ok ⟨session.accountId, tenantId.orElse (fun _ => session.tenantId)⟩

/- ### OAuth state store (src/unnamed/part_004, lines 587-613) and the
OAuth callback (src/app/api/auth/callback/route.ts) -/

/-- One oAuthState row (state is unique, accountId is an optional relation). -/
structure OAuthStateRec where
  id : Nat
  state : String
  accountId : Option String
  expiresAt : Int
deriving DecidableEq, Repr

/-- One account row (only the fields the callback touches). -/
structure Account where
  id : String
  email : String
deriving DecidableEq, Repr

/-- validateOAuthState (src/unnamed/part_004 lines 598-613): findUnique by
state with the account relation included; when found and
`expiresAt > new Date()`, delete the record by id and return its account,
otherwise return null with the store untouched. -/
def validateOAuthState (store : List OAuthStateRec) (accounts : List Account)
    (now : Int) (state : String) : Option Account × List OAuthStateRec :=
  match store.find? (fun r => r.state = state) with
  | some r =>
      if now < r.expiresAt then
        (r.accountId.bind (fun aid => accounts.find? (fun a => a.id = aid)),
         store.filter (fun r' => r'.id ≠ r.id))
      else (none, store)
  | none => (none, store)

/-- Where the callback redirect lands: an error code or success with the
connected tenant count. -/
inductive CallbackOutcome where
  | redirectError (code : String)
  | success (tenantCount : Nat)
deriving DecidableEq, Repr

/-- Observable effects of one callback request: the redirect, the OAuth
state store afterwards, and how many storeTokens / createMCPSession calls ran. -/
structure CallbackResult where
  outcome : CallbackOutcome
  store : List OAuthStateRec
  tokensStored : Nat
  sessionsCreated : Nat
deriving DecidableEq, Repr

/-- GET /api/auth/callback (src/app/api/auth/callback/route.ts lines 8-76):
error param short-circuits; missing code/state redirects missing_params;
state validation failure redirects invalid_state; a missing PKCE verifier
redirects missing_verifier; a failed token exchange lands in the catch
branch as callback_error.  On success the tokens are stored once for the
account plus once per tenant, and one MCP session is created.  The verifier
cache, exchange outcome and tenant list are inputs, standing for the cache
read and the two network calls. -/
def callbackGET (store : List OAuthStateRec) (accounts : List Account)
    (now : Int) (errorParam : Option String) (code state : Option String)
    (verifier : Option String) (exchangeOk : Bool) (tenants : List String) :
    CallbackResult :=
  match errorParam with
  | some e => ⟨.redirectError e, store, 0, 0⟩
  | none =>
      match code, state with
      | some _, some s =>
          match validateOAuthState store accounts now s with
          | (none, store') => ⟨.redirectError "invalid_state", store', 0, 0⟩
          | (some _, store') =>
              match verifier with
              | none => ⟨.redirectError "missing_verifier", store', 0, 0⟩
              | some _ =>
                  if exchangeOk then
                    ⟨.success tenants.length, store', 1 + tenants.length, 1⟩
                  else ⟨.redirectError "callback_error", store', 0, 0⟩
      | _, _ => ⟨.redirectError "missing_params", store, 0, 0⟩

/- ### Token vault (src/unnamed/part_005 lines 67-148, legacy variant
src/unnamed/part_004 lines 781-855)

The module-level encrypt/decrypt calls are passed in as `enc`/`dec`; the
refresh-token network exchange is passed in as a `RefreshOutcome`. -/

/-- One oAuthToken row. -/
structure TokenRow where
  id : Nat
  accountId : String
  tenantId : Option String
  accessToken : String
  refreshToken : String
  tokenType : String
  scope : String
  expiresAt : Int
  createdAt : Int
deriving DecidableEq, Repr

/-- A token response from the authorization server (store/refresh input). -/
structure NewTokens where
  access_token : String
  refresh_token : String
  expires_in : Int
  token_type : String
  scope : String
deriving DecidableEq, Repr

/-- What getValidTokens hands back to callers. -/
structure TokenSet where
  access_token : String
  token_type : String
  scope : String
deriving DecidableEq, Repr

/-- The TokenRefreshError thrown on a failed refresh, carrying the upstream
cause (src/unnamed/part_005 lines 8-14 and 139). -/
structure TokenRefreshErr where
  message : String
  cause : String
deriving DecidableEq, Repr

/-- Outcome of the refreshAccessToken network call. -/
inductive RefreshOutcome where
  | success (t : NewTokens)
  | failure (cause : String)
deriving DecidableEq, Repr

/-- The row storeTokens creates: both tokens encrypted,
`expiresAt = Date.now() + expires_in * 1000`, createdAt stamped now. -/
def storedRow (enc : String → String) (now : Int) (newId : Nat)
    (accountId : String) (tokens : NewTokens)
    (tenantId : Option String) : TokenRow :=
  { id := newId, accountId := accountId, tenantId := tenantId,
    accessToken := enc tokens.access_token,
    refreshToken := enc tokens.refresh_token,
    tokenType := tokens.token_type, scope := tokens.scope,
    expiresAt := now + tokens.expires_in * 1000,
    createdAt := now }

/-- storeTokens (src/unnamed/part_005 lines 67-83): encrypt both tokens,
`expiresAt = Date.now() + expires_in * 1000`, create one row. -/
def storeTokens (enc : String → String) (db : List TokenRow) (now : Int)
    (newId : Nat) (accountId : String) (tokens : NewTokens)
    (tenantId : Option String) : List TokenRow :=
  db ++ [storedRow enc now newId accountId tokens tenantId]

/-- The Prisma where-clause of getValidTokens' findFirst: accountId equal,
expiresAt strictly in the future, and tenantId equal when the argument is
present — an `undefined` tenantId is ignored by Prisma, so `none` imposes
no tenant condition. -/
def tokenRowMatches (accountId : String) (tenantId : Option String)
    (now : Int) (r : TokenRow) : Bool :=
  r.accountId = accountId &&
    (match tenantId with
     | none => true
     | some t => r.tenantId = some t) &&
    decide (now < r.expiresAt)

/-- findFirst with orderBy createdAt desc: the row with the greatest
createdAt among those kept (earliest row wins a tie). -/
def findFirstByCreatedAtDesc : List TokenRow → Option TokenRow
  | [] => none
  | r :: rs =>
      match findFirstByCreatedAtDesc rs with
      | none => some r
      | some best => if r.createdAt < best.createdAt then some best else some r

/-- The row getValidTokens' findFirst call selects. -/
def selectTokenRow (db : List TokenRow) (now : Int) (accountId : String)
    (tenantId : Option String) : Option TokenRow :=
  findFirstByCreatedAtDesc (db.filter (tokenRowMatches accountId tenantId now))

/-- Observable outcome of one getValidTokens call: the returned value (or
thrown TokenRefreshError), the token table afterwards, whether the refresh
network call ran, and the row findFirst selected. -/
structure VaultResult where
  result : Except TokenRefreshErr (Option TokenSet)
  db : List TokenRow
  refreshCalled : Bool
  row : Option TokenRow
deriving Repr

/-- getValidTokens, current variant (src/unnamed/part_005 lines 85-148):
select the most recent non-expired matching row (null when none); decrypt
its access token; when `expiresAt ≤ now + 5 minutes` run the refresh —
on success re-encrypt and update the same row and return the fresh access
token, on failure set the row's expiresAt to the epoch and throw
TokenRefreshError; otherwise return the decrypted token directly. -/
def getValidTokens (enc dec : String → String) (db : List TokenRow)
    (now : Int) (accountId : String) (tenantId : Option String)
    (refresh : RefreshOutcome) : VaultResult :=
  match selectTokenRow db now accountId tenantId with
  | none => ⟨.ok none, db, false, none⟩
  | some r =>
      let accessToken := dec r.accessToken
      if r.expiresAt ≤ now + 5 * 60 * 1000 then
        match refresh with
        | .success nt =>
            ⟨.ok (some ⟨nt.access_token, r.tokenType, r.scope⟩),
             db.map (fun x =>
               if x.id = r.id then
                 { x with accessToken := enc nt.access_token,
                          refreshToken := enc nt.refresh_token,
                          expiresAt := now + nt.expires_in * 1000 }
               else x),
             true, some r⟩
        | .failure cause =>
            ⟨.error ⟨"Failed to refresh Xero token", cause⟩,
             db.map (fun x => if x.id = r.id then { x with expiresAt := 0 } else x),
             true, some r⟩
      else
        ⟨.ok (some ⟨accessToken, r.tokenType, r.scope⟩), db, false, some r⟩

/-- getValidTokens, legacy variant (src/unnamed/part_004 lines 800-855):
identical until the refresh-failure branch, which only logs and returns
null — no row update, no thrown error. -/
def getValidTokens_legacy (enc dec : String → String) (db : List TokenRow)
    (now : Int) (accountId : String) (tenantId : Option String)
    (refresh : RefreshOutcome) : VaultResult :=
  match selectTokenRow db now accountId tenantId with
  | none => ⟨.ok none, db, false, none⟩
  | some r =>
      let accessToken := dec r.accessToken
      if r.expiresAt ≤ now + 5 * 60 * 1000 then
        match refresh with
        | .success nt =>
            ⟨.ok (some ⟨nt.access_token, r.tokenType, r.scope⟩),
             db.map (fun x =>
               if x.id = r.id then
                 { x with accessToken := enc nt.access_token,
                          refreshToken := enc nt.refresh_token,
                          expiresAt := now + nt.expires_in * 1000 }
               else x),
             true, some r⟩
        | .failure _ =>
            ⟨.ok none, db, true, some r⟩
      else
        ⟨.ok (some ⟨accessToken, r.tokenType, r.scope⟩), db, false, some r⟩

/- ### Webhook ingestion (src/app/api/webhooks/xero/route.ts)

The HMAC-SHA256 digest and the base64 decoding performed by
crypto.timingSafeEqual(Buffer.from(..,'base64'), ..) are external library
calls and are passed in as functions `hmacB64` (secret and raw body to
base64 digest) and `b64decode`. -/

/-- One entry of a webhook payload's events array. -/
structure WebhookEvent where
  resourceId : String
  resourceType : String
  eventType : String
  eventDateUtc : String
  tenantId : String
deriving DecidableEq, Repr

/-- The dedup key built in the event loop (line 87):
`resourceId + "_" + eventType + "_" + eventDateUtc`. -/
def eventKey (e : WebhookEvent) : String :=
  e.resourceId ++ "_" ++ e.eventType ++ "_" ++ e.eventDateUtc

/-- The module-level processedEvents Map, insertion-ordered. -/
abbrev EventMap := List (String × Int)

/-- EVENT_EXPIRY (line 13): 24 hours in milliseconds. -/
def EVENT_EXPIRY : Int := 24 * 60 * 60 * 1000

/-- Map.get. -/
def mapLookup (m : EventMap) (k : String) : Option Int :=
  (m.find? (fun p => p.1 = k)).map Prod.snd

/-- Map.delete. -/
def mapDelete (m : EventMap) (k : String) : EventMap :=
  m.filter (fun p => p.1 ≠ k)

/-- Map.set: replaces in place when the key exists, appends otherwise. -/
def mapSet (m : EventMap) (k : String) (v : Int) : EventMap :=
  if (m.find? (fun p => p.1 = k)).isSome then
    m.map (fun p => if p.1 = k then (k, v) else p)
  else m ++ [(k, v)]

/-- isEventProcessed (lines 185-197): a stale entry (older than
EVENT_EXPIRY) is deleted and reported unprocessed; the map comes back
because the check mutates it. -/
def isEventProcessed (m : EventMap) (now : Int) (k : String) :
    Bool × EventMap :=
  match mapLookup m k with
  | none => (false, m)
  | some t => if now - t > EVENT_EXPIRY then (false, mapDelete m k) else (true, m)

/-- markEventProcessed (lines 200-212): set the key to now, then when the
map holds more than 1000 entries drop every stale one. -/
def markEventProcessed (m : EventMap) (now : Int) (k : String) : EventMap :=
  let m' := mapSet m k now
  if 1000 < m'.length then m'.filter (fun p => ¬ now - p.2 > EVENT_EXPIRY) else m'

/-- Whether the event's type dispatches to one of the CREATE/UPDATE/DELETE
handlers (lines 236-248); other types only log. -/
def dispatchesHandler (e : WebhookEvent) : Bool :=
  e.eventType = "CREATE" || e.eventType = "UPDATE" || e.eventType = "DELETE"

/-- Per-request ingestion state: the dedup map plus this request's counters
(processed/failed mirror processedEventIds/failedEventIds, duplicates the
webhook_duplicate_event monitoring logs, handlerCalls the type-specific
handler invocations, dbWrites the db.webhookEvent.create calls and
ledgerWrites the markEventProcessed calls). -/
structure IngestState where
  map : EventMap
  processed : Nat
  failed : Nat
  duplicates : Nat
  handlerCalls : Nat
  dbWrites : Nat
  ledgerWrites : Nat
deriving DecidableEq, Repr

/-- One iteration of the event loop (lines 85-115): skip an already
processed key; otherwise processWebhookEvent writes the webhookEvent row
and dispatches by type — when the handler throws (`handlerFails`) the
event is counted failed and not marked processed, otherwise it is marked
processed. -/
def processOneEvent (handlerFails : WebhookEvent → Bool) (now : Int)
    (st : IngestState) (e : WebhookEvent) : IngestState :=
  let k := eventKey e
  let dup := isEventProcessed st.map now k
  if dup.1 then
    { st with map := dup.2, duplicates := st.duplicates + 1 }
  else
    let hc := if dispatchesHandler e then 1 else 0
    if handlerFails e then
      { st with map := dup.2, dbWrites := st.dbWrites + 1,
                handlerCalls := st.handlerCalls + hc,
                failed := st.failed + 1 }
    else
      { st with map := markEventProcessed dup.2 now k,
                dbWrites := st.dbWrites + 1,
                handlerCalls := st.handlerCalls + hc,
                ledgerWrites := st.ledgerWrites + 1,
                processed := st.processed + 1 }

/-- The whole event loop. -/
def processEvents (handlerFails : WebhookEvent → Bool) (now : Int)
    (events : List WebhookEvent) (st : IngestState) : IngestState :=
  events.foldl (processOneEvent handlerFails now) st

/-- verifyWebhookSignature (lines 161-182): false when XERO_WEBHOOK_KEY is
unset; otherwise timingSafeEqual of the base64-decoded header and expected
digest (a length mismatch throws and is caught as false, which decoded-list
inequality also covers). -/
def verifyWebhookSignature (secret : Option String)
    (hmacB64 : String → String → String) (b64decode : String → List Nat)
    (payload sig : String) : Bool :=
  match secret with
  | none => false
  | some key => b64decode sig = b64decode (hmacB64 key payload)

/-- The three response shapes of the webhook POST handler. -/
inductive WebhookResponse where
  | unauthorized (msg : String)
  | badRequest (code : String)
  | ok (processed failed : Nat)
deriving DecidableEq, Repr

/-- HTTP status of a webhook response. -/
def statusOf : WebhookResponse → Nat
  | .unauthorized _ => 401
  | .badRequest _ => 400
  | .ok _ _ => 200

/-- What JSON.parse plus the events-array check make of the raw body. -/
inductive ParsedBody where
  | malformed
  | noEventsArray
  | events (es : List WebhookEvent)
deriving Repr

/-- Observable outcome of one webhook POST. -/
structure PostResult where
  response : WebhookResponse
  state : IngestState
deriving DecidableEq, Repr

/-- POST /api/webhooks/xero (lines 15-158): 401 without a signature header,
401 when verification fails, 400 on malformed JSON or a missing events
array — all before any event is touched; otherwise run the event loop and
answer 200 with `{status: ok, processed, failed, requestId}`. -/
def webhookPOST (secret : Option String) (hmacB64 : String → String → String)
    (b64decode : String → List Nat) (handlerFails : WebhookEvent → Bool)
    (now : Int) (sigHeader : Option String) (body : String)
    (parse : ParsedBody) (map : EventMap) : PostResult :=
  match sigHeader with
  | none => ⟨.unauthorized "Missing webhook signature", ⟨map, 0, 0, 0, 0, 0, 0⟩⟩
  | some sig =>
      if verifyWebhookSignature secret hmacB64 b64decode body sig then
        match parse with
        | .malformed => ⟨.badRequest "WEBHOOK_INVALID_JSON", ⟨map, 0, 0, 0, 0, 0, 0⟩⟩
        | .noEventsArray => ⟨.badRequest "WEBHOOK_INVALID_PAYLOAD", ⟨map, 0, 0, 0, 0, 0, 0⟩⟩
        | .events es =>
            let st := processEvents handlerFails now es ⟨map, 0, 0, 0, 0, 0, 0⟩
            ⟨.ok st.processed st.failed, st⟩
      else ⟨.unauthorized "Invalid webhook signature", ⟨map, 0, 0, 0, 0, 0, 0⟩⟩

/- ### Lemmas about hex encoding and colon splitting -/

/-- Decoding inverts encoding on a single hex digit. -/
theorem hexDigitVal_hexDigit : ∀ n < 16, hexDigitVal (hexDigit n) = some n := by decide

/-- A hex digit is never the separator character. -/
theorem hexDigit_ne_colon : ∀ n < 16, hexDigit n ≠ ':' := by decide

/-- Hex decoding inverts hex encoding on byte lists. -/
theorem hexDecode_hexEncode : ∀ bs : List Nat, (∀ b ∈ bs, b < 256) →
    hexDecode (hexEncode bs) = some bs := by
  intro bs
  induction bs with
  | nil => intro _; rfl
  | cons b bs ih =>
      intro h
      have hb : b < 256 := h b (List.mem_cons_self _ _)
      have h1 : b / 16 < 16 := by omega
      have h2 : b % 16 < 16 := by omega
      have hrest := ih (fun x hx => h x (List.mem_cons_of_mem _ hx))
      have hb' : 16 * (b / 16) + b % 16 = b := Nat.div_add_mod b 16
      simp [hexEncode, hexDecode, hexDigitVal_hexDigit _ h1,
            hexDigitVal_hexDigit _ h2, hrest, hb']

/-- The hex encoding of a byte list contains no colon. -/
theorem colon_not_mem_hexEncode : ∀ bs : List Nat, (∀ b ∈ bs, b < 256) →
    ':' ∉ hexEncode bs := by
  intro bs
  induction bs with
  | nil => intro _ hmem; cases hmem
  | cons b bs ih =>
      intro h hmem
      have hb : b < 256 := h b (List.mem_cons_self _ _)
      have h1 : b / 16 < 16 := by omega
      have h2 : b % 16 < 16 := by omega
      simp only [hexEncode, List.mem_cons] at hmem
      rcases hmem with hmem | hmem | hmem
      · exact hexDigit_ne_colon _ h1 hmem.symm
      · exact hexDigit_ne_colon _ h2 hmem.symm
      · exact ih (fun x hx => h x (List.mem_cons_of_mem _ hx)) hmem

/-- Splitting a colon-free list is the identity. -/
theorem splitColon_no_colon : ∀ l : List Char, ':' ∉ l → splitColon l = [l] := by
  intro l
  induction l with
  | nil => intro _; rfl
  | cons c rest ih =>
      intro h
      have hc : ¬ c = ':' := fun hh => h (hh ▸ List.mem_cons_self _ _)
      have hrest : ':' ∉ rest := fun hh => h (List.mem_cons_of_mem _ hh)
      simp [splitColon, hc, ih hrest]

/-- Splitting around the first colon separates the two halves. -/
theorem splitColon_append (b : List Char) : ∀ a : List Char, ':' ∉ a →
    splitColon (a ++ ':' :: b) = a :: splitColon b := by
  intro a
  induction a with
  | nil => intro _; simp [splitColon]
  | cons c rest ih =>
      intro ha
      have hc : ¬ c = ':' := fun hh => ha (hh ▸ List.mem_cons_self _ _)
      have hrest : ':' ∉ rest := fun hh => ha (List.mem_cons_of_mem _ hh)
      simp [splitColon, hc, ih hrest]

/-- Hex encoding doubles the length. -/
theorem hexEncode_length : ∀ bs : List Nat, (hexEncode bs).length = 2 * bs.length := by
  intro bs
  induction bs with
  | nil => rfl
  | cons b bs ih => simp [hexEncode, ih]; omega

/-- Hex encoding is injective on byte lists. -/
theorem hexEncode_inj (bs₁ bs₂ : List Nat) (h₁ : ∀ b ∈ bs₁, b < 256)
    (h₂ : ∀ b ∈ bs₂, b < 256) (h : hexEncode bs₁ = hexEncode bs₂) : bs₁ = bs₂ := by
  have e1 := hexDecode_hexEncode bs₁ h₁
  have e2 := hexDecode_hexEncode bs₂ h₂
  rw [h] at e1
  rw [e1] at e2
  exact Option.some_inj.mp e2

/-- C9: for every string x, decrypt inverts encrypt under the provisioned
cipher (the round-trip hypothesis stands for AES-256-CBC correctness at
this IV and plaintext, the bounds for ciphertext bytes), and two
encryptions of the same x under the distinct fresh IVs of two calls never
produce identical ciphertext. -/
theorem C9_roundtrip_and_iv_freshness
    (cipherE : List Nat → String → List Nat) (cipherD : List Nat → List Nat → String)
    (x : String) (iv iv₁ iv₂ : List Nat)
    (hiv : ∀ b ∈ iv, b < 256) (hct : ∀ b ∈ cipherE iv x, b < 256)
    (hround : cipherD iv (cipherE iv x) = x)
    (hiv₁ : ∀ b ∈ iv₁, b < 256) (hiv₂ : ∀ b ∈ iv₂, b < 256)
    (hlen : iv₁.length = iv₂.length) (hne : iv₁ ≠ iv₂) :
    decrypt cipherD (encrypt cipherE iv x) = some x ∧
    encrypt cipherE iv₁ x ≠ encrypt cipherE iv₂ x := by
  constructor
  · unfold encrypt decrypt
    rw [splitColon_append _ _ (colon_not_mem_hexEncode iv hiv)]
    rw [splitColon_no_colon _ (colon_not_mem_hexEncode _ hct)]
    simp [hexDecode_hexEncode iv hiv, hexDecode_hexEncode _ hct, hround]
  · intro heq
    unfold encrypt at heq
    have hl : (hexEncode iv₁).length = (hexEncode iv₂).length := by
      rw [hexEncode_length, hexEncode_length, hlen]
    exact hne (hexEncode_inj iv₁ iv₂ hiv₁ hiv₂ (List.append_inj heq hl).1)

/-- Witness for C9 at a concrete plaintext, cipher and IV pair. -/
theorem C9_witness :
    decrypt (fun _ bs => String.mk (bs.map Char.ofNat))
        (encrypt (fun _ s => s.data.map Char.toNat) [1, 2] "tok") = some "tok" ∧
    encrypt (fun _ s => s.data.map Char.toNat) [0] "tok"
      ≠ encrypt (fun _ s => s.data.map Char.toNat) [1] "tok" :=
  C9_roundtrip_and_iv_freshness (fun _ s => s.data.map Char.toNat)
    (fun _ bs => String.mk (bs.map Char.ofNat)) "tok" [1, 2] [0] [1]
    (by decide) (by decide) (by decide) (by decide) (by decide) rfl (by decide)

/- ### Session claims -/

/-- C1: with the same session bound to tenant-A, a tools/call supplying
tenant-B is rejected by the DB-session dispatcher but silently served for
tenant-B by the in-memory-session dispatcher variant — the requested
tenant overrides the session's bound tenant instead of failing. -/
theorem C1_inmem_dispatcher_skips_tenant_check :
    getXeroClient_mem [("s1", ⟨"acct1", some "tenant-A", 9999⟩)] "s1" (some "tenant-B")
      = .ok ⟨"acct1", some "tenant-B"⟩ ∧
    getXeroClient_db [⟨"s1", "acct1", some "tenant-A", 9999⟩] 0 "s1" (some "tenant-B")
      = .error "Tenant ID does not match session" ∧
    ("tenant-B" : String) ≠ "tenant-A" :=
  ⟨rfl, rfl, by decide⟩

/-- Counterexample to C6: at the boundary expiresAt = now the claim says
Validate returns null (expiresAt ≤ now), but the code's strict comparison
`session.expiresAt < new Date()` returns the record as valid. -/
theorem C6_boundary_counterexample :
    validateMCPSession [⟨"sid1", "acct1", none, 5⟩] 5 "sid1"
      = some ⟨"sid1", "acct1", none, 5⟩ ∧
    (⟨"sid1", "acct1", none, 5⟩ : MCPSession).expiresAt ≤ 5 :=
  ⟨rfl, by decide⟩

/-- C6 (amended): Validate returns null both when no session record exists
and when a record exists with expiresAt strictly before now — the two
cases are indistinguishable — and never returns a record whose expiresAt
is strictly in the past. -/
theorem C6_validate_absent_and_expired_identical
    (sessions : List MCPSession) (now : Int) (sid : String) :
    (sessions.find? (fun s => s.sessionId = sid) = none →
      validateMCPSession sessions now sid = none) ∧
    (∀ s, sessions.find? (fun s => s.sessionId = sid) = some s →
      s.expiresAt < now → validateMCPSession sessions now sid = none) ∧
    (∀ s, validateMCPSession sessions now sid = some s → now ≤ s.expiresAt) := by
  unfold validateMCPSession
  refine ⟨?_, ?_, ?_⟩
  · intro h; rw [h]
  · intro s h hlt; rw [h]; simp [hlt]
  · intro s h
    cases hf : sessions.find? (fun s => s.sessionId = sid) with
    | none => rw [hf] at h; cases h
    | some s' =>
        rw [hf] at h
        dsimp only at h
        by_cases hlt : s'.expiresAt < now
        · rw [if_pos hlt] at h; cases h
        · rw [if_neg hlt] at h
          cases h
          omega

/-- Witness for the amended C6 on a concrete expired session. -/
theorem C6_validate_witness :
    validateMCPSession [⟨"a1", "acct", none, 10⟩] 20 "a1" = none :=
  (C6_validate_absent_and_expired_identical [⟨"a1", "acct", none, 10⟩] 20 "a1").2.1
    ⟨"a1", "acct", none, 10⟩ (by decide) (by decide)

/- ### Lemmas about the vault's row selection -/

/-- findFirst returns an element of its input. -/
theorem findFirst_mem : ∀ l : List TokenRow, ∀ r,
    findFirstByCreatedAtDesc l = some r → r ∈ l := by
  intro l
  induction l with
  | nil => intro r h; cases h
  | cons x xs ih =>
      intro r h
      unfold findFirstByCreatedAtDesc at h
      cases hrec : findFirstByCreatedAtDesc xs with
      | none =>
          rw [hrec] at h
          cases h
          exact List.mem_cons_self _ _
      | some best =>
          rw [hrec] at h
          dsimp only at h
          by_cases hlt : x.createdAt < best.createdAt
          · rw [if_pos hlt] at h
            cases h
            exact List.mem_cons_of_mem _ (ih _ hrec)
          · rw [if_neg hlt] at h
            cases h
            exact List.mem_cons_self _ _

/-- findFirst with orderBy createdAt desc returns a row of maximal createdAt. -/
theorem findFirst_max : ∀ l : List TokenRow, ∀ r,
    findFirstByCreatedAtDesc l = some r → ∀ x ∈ l, x.createdAt ≤ r.createdAt := by
  intro l
  induction l with
  | nil => intro r h; cases h
  | cons y xs ih =>
      intro r h x hx
      unfold findFirstByCreatedAtDesc at h
      cases hrec : findFirstByCreatedAtDesc xs with
      | none =>
          rw [hrec] at h
          cases h
          rcases List.mem_cons.mp hx with hx | hx
          · exact hx ▸ le_refl _
          · cases hn : xs with
            | nil => rw [hn] at hx; cases hx
            | cons z zs =>
                exfalso
                rw [hn] at hrec
                unfold findFirstByCreatedAtDesc at hrec
                cases hz : findFirstByCreatedAtDesc zs with
                | none => rw [hz] at hrec; cases hrec
                | some b =>
                    rw [hz] at hrec
                    dsimp only at hrec
                    by_cases hb : z.createdAt < b.createdAt
                    · rw [if_pos hb] at hrec; cases hrec
                    · rw [if_neg hb] at hrec; cases hrec
      | some best =>
          rw [hrec] at h
          dsimp only at h
          rcases List.mem_cons.mp hx with hx | hx
          · by_cases hlt : y.createdAt < best.createdAt
            · rw [if_pos hlt] at h; cases h; exact hx ▸ le_of_lt hlt
            · rw [if_neg hlt] at h; cases h; exact hx ▸ le_refl _
          · have hxb := ih best hrec x hx
            by_cases hlt : y.createdAt < best.createdAt
            · rw [if_pos hlt] at h; cases h; exact hxb
            · rw [if_neg hlt] at h; cases h; exact le_trans hxb (not_lt.mp hlt)

/-- Appending a strictly newest row makes it the findFirst result. -/
theorem findFirst_append_newest : ∀ (l : List TokenRow) (r : TokenRow),
    (∀ x ∈ l, x.createdAt < r.createdAt) →
    findFirstByCreatedAtDesc (l ++ [r]) = some r := by
  intro l r
  induction l with
  | nil => intro _; rfl
  | cons x xs ih =>
      intro h
      have hx : x.createdAt < r.createdAt := h x (List.mem_cons_self _ _)
      have hrec := ih (fun y hy => h y (List.mem_cons_of_mem _ hy))
      show findFirstByCreatedAtDesc (x :: (xs ++ [r])) = some r
      unfold findFirstByCreatedAtDesc
      rw [hrec]
      dsimp only
      rw [if_pos hx]

/-- What the selected row satisfies: membership, the where-clause, and
maximal createdAt among the matching rows. -/
theorem selectTokenRow_spec (db : List TokenRow) (now : Int) (acct : String)
    (tid : Option String) (r : TokenRow)
    (h : selectTokenRow db now acct tid = some r) :
    r ∈ db ∧ tokenRowMatches acct tid now r = true ∧
      ∀ x ∈ db, tokenRowMatches acct tid now x = true →
        x.createdAt ≤ r.createdAt := by
  unfold selectTokenRow at h
  have hmem := findFirst_mem _ _ h
  have hmax := findFirst_max _ _ h
  rw [List.mem_filter] at hmem
  exact ⟨hmem.1, hmem.2,
    fun x hx hmx => hmax x (List.mem_filter.mpr ⟨hx, hmx⟩)⟩

/-- In a table whose rows have pairwise distinct ids, a shared id forces
the same row. -/
theorem row_id_unique : ∀ l : List TokenRow,
    l.Pairwise (fun a b => a.id ≠ b.id) →
    ∀ x ∈ l, ∀ r ∈ l, x.id = r.id → x = r := by
  intro l
  induction l with
  | nil => intro _ x hx; cases hx
  | cons a t ih =>
      intro hp x hx r hr hid
      have hp' := List.pairwise_cons.mp hp
      rcases List.mem_cons.mp hx with hx | hx <;>
        rcases List.mem_cons.mp hr with hr | hr
      · rw [hx, hr]
      · exact absurd (hx ▸ hid) (hp'.1 r hr)
      · exact absurd (hr ▸ hid.symm) (hp'.1 x hx)
      · exact ih hp'.2 x hx r hr hid

/- ### Vault claims -/

/-- C4: a token stored with expiry more than 5 minutes out is returned
verbatim by an immediately following getValidTokens with no refresh call;
and (for any call) a returned token's backing row is never already
expired — its post-call expiresAt is strictly after now, given that a
successful refresh response carries a positive expires_in and row ids are
unique. -/
theorem C4_fast_path_no_refresh_and_never_expired
    (enc dec : String → String) (db : List TokenRow) (now : Int) (newId : Nat)
    (accountId : String) (tokens : NewTokens) (tenantId : Option String)
    (refresh : RefreshOutcome)
    (hdec : dec (enc tokens.access_token) = tokens.access_token)
    (hfresh : 5 * 60 * 1000 < tokens.expires_in * 1000)
    (hold : ∀ r ∈ db, r.createdAt < now) :
    ((getValidTokens enc dec (storeTokens enc db now newId accountId tokens tenantId)
        now accountId tenantId refresh).refreshCalled = false ∧
      (getValidTokens enc dec (storeTokens enc db now newId accountId tokens tenantId)
        now accountId tenantId refresh).result
        = .ok (some ⟨tokens.access_token, tokens.token_type, tokens.scope⟩)) ∧
    ∀ (db₀ : List TokenRow) (now₀ : Int) (acct : String) (tid : Option String)
      (refr : RefreshOutcome) (ts : TokenSet),
      (∀ nt, refr = RefreshOutcome.success nt → 0 < nt.expires_in) →
      db₀.Pairwise (fun a b => a.id ≠ b.id) →
      (getValidTokens enc dec db₀ now₀ acct tid refr).result = .ok (some ts) →
      ∃ r, (getValidTokens enc dec db₀ now₀ acct tid refr).row = some r ∧
        ∀ x ∈ (getValidTokens enc dec db₀ now₀ acct tid refr).db,
          x.id = r.id → now₀ < x.expiresAt := by
  have hm : tokenRowMatches accountId tenantId now
      (storedRow enc now newId accountId tokens tenantId) = true := by
    unfold tokenRowMatches storedRow
    cases tenantId <;> simp <;> omega
  have hsel : selectTokenRow (storeTokens enc db now newId accountId tokens tenantId)
      now accountId tenantId
      = some (storedRow enc now newId accountId tokens tenantId) := by
    unfold storeTokens selectTokenRow
    rw [List.filter_append]
    rw [show List.filter (tokenRowMatches accountId tenantId now)
          [storedRow enc now newId accountId tokens tenantId]
        = [storedRow enc now newId accountId tokens tenantId]
      from by simp [hm]]
    refine findFirst_append_newest _ _ (fun x hx => ?_)
    have hxc := hold x (List.mem_filter.mp hx).1
    simpa [storedRow] using hxc
  constructor
  · have hout : getValidTokens enc dec
        (storeTokens enc db now newId accountId tokens tenantId)
        now accountId tenantId refresh
        = ⟨.ok (some ⟨tokens.access_token, tokens.token_type, tokens.scope⟩),
           storeTokens enc db now newId accountId tokens tenantId, false,
           some (storedRow enc now newId accountId tokens tenantId)⟩ := by
      unfold getValidTokens
      rw [hsel]
      dsimp only [storedRow]
      rw [if_neg (by omega : ¬ now + tokens.expires_in * 1000 ≤ now + 5 * 60 * 1000)]
      rw [hdec]
    exact ⟨by rw [hout], by rw [hout]⟩
  · intro db₀ now₀ acct tid refr ts hpos hpw hres
    cases hsel₀ : selectTokenRow db₀ now₀ acct tid with
    | none =>
        unfold getValidTokens at hres
        rw [hsel₀] at hres
        simp at hres
    | some r =>
        obtain ⟨hrmem, hrmatch, -⟩ := selectTokenRow_spec db₀ now₀ acct tid r hsel₀
        have hrexp : now₀ < r.expiresAt := by
          unfold tokenRowMatches at hrmatch
          simp only [Bool.and_eq_true, decide_eq_true_eq] at hrmatch
          exact hrmatch.2
        unfold getValidTokens at hres ⊢
        rw [hsel₀] at hres ⊢
        dsimp only at hres ⊢
        by_cases hwin : r.expiresAt ≤ now₀ + 5 * 60 * 1000
        · rw [if_pos hwin] at hres ⊢
          cases refr with
          | success nt =>
              have hnt : 0 < nt.expires_in := hpos nt rfl
              refine ⟨r, rfl, ?_⟩
              intro x hx hxid
              rw [List.mem_map] at hx
              obtain ⟨y, hy, hyx⟩ := hx
              by_cases hyid : y.id = r.id
              · rw [if_pos hyid] at hyx
                rw [← hyx]
                dsimp only
                omega
              · rw [if_neg hyid] at hyx
                rw [← hyx] at hxid
                exact absurd hxid hyid
          | failure c => simp at hres
        · rw [if_neg hwin] at hres ⊢
          refine ⟨r, rfl, ?_⟩
          intro x hx hxid
          rw [row_id_unique db₀ hpw x hx r hrmem hxid]
          exact hrexp

/-- Witness for C4: a token stored with expires_in = 1800 s is returned
unchanged with no refresh call. -/
theorem C4_witness :
    (getValidTokens id id
        (storeTokens id [] 0 1 "acct" ⟨"AT", "RT", 1800, "Bearer", "sc"⟩ none)
        0 "acct" none (.failure "n")).refreshCalled = false ∧
    (getValidTokens id id
        (storeTokens id [] 0 1 "acct" ⟨"AT", "RT", 1800, "Bearer", "sc"⟩ none)
        0 "acct" none (.failure "n")).result = .ok (some ⟨"AT", "Bearer", "sc"⟩) :=
  (C4_fast_path_no_refresh_and_never_expired id id [] 0 1 "acct"
    ⟨"AT", "RT", 1800, "Bearer", "sc"⟩ none (.failure "n") rfl (by decide)
    (by intro r hr; cases hr)).1

/-- C5: at a row inside the 5-minute refresh window whose refresh exchange
fails, the current getValidTokens soft-invalidates the row (expiresAt set
to the epoch, row kept) and throws TokenRefreshError with the upstream
cause, while the legacy variant returns null and leaves the row untouched
— the swallow path the spec rules out. -/
theorem C5_refresh_failure_legacy_swallows :
    getValidTokens id id
        [⟨1, "acct1", some "t1", "encA", "encR", "Bearer", "sc", 60000, 0⟩]
        0 "acct1" (some "t1") (.failure "exchange 500")
      = ⟨.error ⟨"Failed to refresh Xero token", "exchange 500"⟩,
         [⟨1, "acct1", some "t1", "encA", "encR", "Bearer", "sc", 0, 0⟩],
         true, some ⟨1, "acct1", some "t1", "encA", "encR", "Bearer", "sc", 60000, 0⟩⟩ ∧
    getValidTokens_legacy id id
        [⟨1, "acct1", some "t1", "encA", "encR", "Bearer", "sc", 60000, 0⟩]
        0 "acct1" (some "t1") (.failure "exchange 500")
      = ⟨.ok none,
         [⟨1, "acct1", some "t1", "encA", "encR", "Bearer", "sc", 60000, 0⟩],
         true, some ⟨1, "acct1", some "t1", "encA", "encR", "Bearer", "sc", 60000, 0⟩⟩ :=
  ⟨rfl, rfl⟩

/-- Counterexample to C10: a token stored under tenant t1 is returned by a
getValidTokens call that requests no tenantId at all — the undefined
tenant filter is dropped, so the claim's "vice versa" direction fails. -/
theorem C10_counterexample_no_tenant_requested :
    (getValidTokens id id
        [⟨1, "acct1", some "t1", "cipherA", "cipherR", "Bearer", "sc", 1000000, 0⟩]
        0 "acct1" none (.failure "n")).row
      = some ⟨1, "acct1", some "t1", "cipherA", "cipherR", "Bearer", "sc", 1000000, 0⟩ ∧
    (getValidTokens id id
        [⟨1, "acct1", some "t1", "cipherA", "cipherR", "Bearer", "sc", 1000000, 0⟩]
        0 "acct1" none (.failure "n")).result
      = .ok (some ⟨"cipherA", "Bearer", "sc"⟩) ∧
    (⟨1, "acct1", some "t1", "cipherA", "cipherR", "Bearer", "sc", 1000000, 0⟩ :
        TokenRow).tenantId ≠ none :=
  ⟨rfl, rfl, by decide⟩

/-- C10 (amended): the row backing any getValidTokens result belongs to
the table, matches the accountId, is non-expired, matches the requested
tenantId exactly whenever one is supplied (with no tenantId the filter is
dropped, Prisma ignoring the undefined value), and is most recently
created among the matching rows. -/
theorem C10_row_selection_scoped
    (enc dec : String → String) (db : List TokenRow) (now : Int)
    (accountId : String) (tenantId : Option String) (refresh : RefreshOutcome) :
    ∀ r, (getValidTokens enc dec db now accountId tenantId refresh).row = some r →
      r ∈ db ∧ r.accountId = accountId ∧ now < r.expiresAt ∧
      (∀ t, tenantId = some t → r.tenantId = some t) ∧
      ∀ x ∈ db, tokenRowMatches accountId tenantId now x = true →
        x.createdAt ≤ r.createdAt := by
  intro r h
  have hsel : selectTokenRow db now accountId tenantId = some r := by
    unfold getValidTokens at h
    cases hsel₀ : selectTokenRow db now accountId tenantId with
    | none =>
        rw [hsel₀] at h
        exact h
    | some r' =>
        rw [hsel₀] at h
        dsimp only at h
        by_cases hwin : r'.expiresAt ≤ now + 5 * 60 * 1000
        · rw [if_pos hwin] at h
          cases refresh with
          | success nt => exact h
          | failure c => exact h
        · rw [if_neg hwin] at h
          exact h
  obtain ⟨hmem, hmatch, hmax⟩ := selectTokenRow_spec db now accountId tenantId r hsel
  unfold tokenRowMatches at hmatch
  simp only [Bool.and_eq_true, decide_eq_true_eq] at hmatch
  refine ⟨hmem, hmatch.1.1, hmatch.2, ?_, hmax⟩
  intro t ht
  have := hmatch.1.2
  rw [ht] at this
  simpa using this

/-- Witness for the amended C10 at a concrete tenant-scoped call. -/
theorem C10_witness :
    (getValidTokens id id
        [⟨1, "acct1", some "t1", "cA", "cR", "Bearer", "sc", 1000000, 0⟩]
        0 "acct1" (some "t1") (.failure "n")).row
      = some ⟨1, "acct1", some "t1", "cA", "cR", "Bearer", "sc", 1000000, 0⟩ ∧
    (⟨1, "acct1", some "t1", "cA", "cR", "Bearer", "sc", 1000000, 0⟩ :
        TokenRow).accountId = "acct1" :=
  ⟨rfl, (C10_row_selection_scoped id id
      [⟨1, "acct1", some "t1", "cA", "cR", "Bearer", "sc", 1000000, 0⟩]
      0 "acct1" (some "t1") (.failure "n")
      ⟨1, "acct1", some "t1", "cA", "cR", "Bearer", "sc", 1000000, 0⟩ rfl).2.1⟩

/- ### OAuth state claim -/

/-- C2: a stored, non-expired state bound to an existing account validates
exactly once — the first validateOAuthState returns the account and
deletes the record, the second call with the same state returns null, and
the callback run against the consumed store redirects with invalid_state
while creating no session and storing no token. -/
theorem C2_oauth_state_single_use
    (store : List OAuthStateRec) (accounts : List Account) (now : Int)
    (r : OAuthStateRec) (acct : Account)
    (verifier : Option String) (exchangeOk : Bool) (tenants : List String)
    (hfind : store.find? (fun x => x.state = r.state) = some r)
    (hexp : now < r.expiresAt)
    (hacct : r.accountId = some acct.id)
    (haccts : accounts.find? (fun a => a.id = acct.id) = some acct)
    (huniq : ∀ x ∈ store, x.state = r.state → x = r) :
    (validateOAuthState store accounts now r.state).1 = some acct ∧
    (validateOAuthState store accounts now r.state).2
      = store.filter (fun x => x.id ≠ r.id) ∧
    r ∉ (validateOAuthState store accounts now r.state).2 ∧
    (validateOAuthState (store.filter (fun x => x.id ≠ r.id))
        accounts now r.state).1 = none ∧
    callbackGET (store.filter (fun x => x.id ≠ r.id)) accounts now none
        (some "authcode") (some r.state) verifier exchangeOk tenants
      = ⟨.redirectError "invalid_state",
         store.filter (fun x => x.id ≠ r.id), 0, 0⟩ := by
  have hv1 : validateOAuthState store accounts now r.state
      = (some acct, store.filter (fun x => x.id ≠ r.id)) := by
    unfold validateOAuthState
    rw [hfind]
    dsimp only
    rw [if_pos hexp, hacct]
    dsimp only [Option.bind]
    rw [haccts]
  have hfind2 : (store.filter (fun x => x.id ≠ r.id)).find?
      (fun x => x.state = r.state) = none := by
    apply List.find?_eq_none.mpr
    intro x hx
    obtain ⟨hmem, hid⟩ := List.mem_filter.mp hx
    simp only [decide_eq_true_eq] at hid ⊢
    intro hst
    exact hid (huniq x hmem hst ▸ rfl)
  have hv2 : validateOAuthState (store.filter (fun x => x.id ≠ r.id))
      accounts now r.state
      = (none, store.filter (fun x => x.id ≠ r.id)) := by
    unfold validateOAuthState
    rw [hfind2]
  refine ⟨by rw [hv1], by rw [hv1], ?_, by rw [hv2], ?_⟩
  · rw [hv1]
    intro hmm
    have := (List.mem_filter.mp hmm).2
    simp at this
  · unfold callbackGET
    dsimp only
    rw [hv2]

/-- Witness for C2 on a one-record store. -/
theorem C2_witness :
    (validateOAuthState [⟨1, "st", some "acct", 10⟩] [⟨"acct", "e@x"⟩] 0 "st").1
      = some ⟨"acct", "e@x"⟩ :=
  (C2_oauth_state_single_use [⟨1, "st", some "acct", 10⟩] [⟨"acct", "e@x"⟩] 0
    ⟨1, "st", some "acct", 10⟩ ⟨"acct", "e@x"⟩ none true []
    (by decide) (by decide) rfl (by decide)
    (by intro x hx hs; simpa using List.mem_singleton.mp hx)).1

/- ### Lemmas about the dedup map and the event loop -/

/-- A key is absent exactly when no entry carries it. -/
theorem mapLookup_eq_none_iff (m : EventMap) (k : String) :
    mapLookup m k = none ↔ ∀ p ∈ m, p.1 ≠ k := by
  unfold mapLookup
  rw [Option.map_eq_none']
  rw [List.find?_eq_none]
  simp

/-- Filtering cannot introduce a key. -/
theorem mapLookup_filter_none (m : EventMap) (k : String)
    (p : String × Int → Bool) (h : mapLookup m k = none) :
    mapLookup (m.filter p) k = none := by
  rw [mapLookup_eq_none_iff] at h ⊢
  exact fun q hq => h q (List.mem_filter.mp hq).1

/-- Setting a different key cannot introduce this one. -/
theorem mapLookup_set_other_none (m : EventMap) (k k' : String) (v : Int)
    (hne : k' ≠ k) (h : mapLookup m k = none) :
    mapLookup (mapSet m k' v) k = none := by
  rw [mapLookup_eq_none_iff] at h ⊢
  intro q hq
  unfold mapSet at hq
  by_cases hs : (m.find? (fun p => p.1 = k')).isSome
  · rw [if_pos hs] at hq
    obtain ⟨p, hp, hpq⟩ := List.mem_map.mp hq
    by_cases hpk : p.1 = k'
    · rw [if_pos hpk] at hpq
      rw [← hpq]
      exact hne
    · rw [if_neg hpk] at hpq
      rw [← hpq]
      exact h p hp
  · rw [if_neg hs] at hq
    rcases List.mem_append.mp hq with hq | hq
    · exact h q hq
    · rw [List.mem_singleton.mp hq]
      exact hne

/-- The dedup check never introduces a key. -/
theorem mapLookup_isEventProcessed_none (m : EventMap) (now : Int)
    (k k' : String) (h : mapLookup m k = none) :
    mapLookup (isEventProcessed m now k').2 k = none := by
  unfold isEventProcessed
  cases hl : mapLookup m k' with
  | none => exact h
  | some t =>
      dsimp only
      by_cases hst : now - t > EVENT_EXPIRY
      · rw [if_pos hst]
        exact mapLookup_filter_none m k _ h
      · rw [if_neg hst]
        exact h

/-- Marking a different key processed cannot introduce this one. -/
theorem mapLookup_mark_other_none (m : EventMap) (now : Int)
    (k k' : String) (hne : k' ≠ k) (h : mapLookup m k = none) :
    mapLookup (markEventProcessed m now k') k = none := by
  unfold markEventProcessed
  dsimp only
  by_cases hlen : 1000 < (mapSet m k' now).length
  · rw [if_pos hlen]
    exact mapLookup_filter_none _ k _ (mapLookup_set_other_none m k k' now hne h)
  · rw [if_neg hlen]
    exact mapLookup_set_other_none m k k' now hne h

/-- A key first set at the end of the map is found with its value. -/
theorem mapLookup_append_self (m : EventMap) (k : String) (v : Int)
    (h : mapLookup m k = none) : mapLookup (m ++ [(k, v)]) k = some v := by
  rw [mapLookup_eq_none_iff] at h
  induction m with
  | nil => simp [mapLookup]
  | cons p ps ih =>
      have hp : p.1 ≠ k := h p (List.mem_cons_self _ _)
      have hrest := ih (fun q hq => h q (List.mem_cons_of_mem _ hq))
      unfold mapLookup at hrest ⊢
      rw [List.cons_append, List.find?_cons_of_neg]
      · exact hrest
      · simp [hp]

/-- Every event adds exactly one to processed + failed + duplicates. -/
theorem processOneEvent_count (f : WebhookEvent → Bool) (now : Int)
    (st : IngestState) (e : WebhookEvent) :
    (processOneEvent f now st e).processed + (processOneEvent f now st e).failed
        + (processOneEvent f now st e).duplicates
      = st.processed + st.failed + st.duplicates + 1 := by
  unfold processOneEvent
  by_cases h1 : (isEventProcessed st.map now (eventKey e)).1 = true
  · simp [h1]
    omega
  · by_cases h2 : f e = true
    · simp [h1, h2]
      omega
    · simp [h1, h2]
      omega

/-- The loop accounts for every event in the three counters. -/
theorem processEvents_counts (f : WebhookEvent → Bool) (now : Int) :
    ∀ (es : List WebhookEvent) (st : IngestState),
      (processEvents f now es st).processed + (processEvents f now es st).failed
          + (processEvents f now es st).duplicates
        = st.processed + st.failed + st.duplicates + es.length := by
  intro es
  induction es with
  | nil => intro st; rfl
  | cons e es ih =>
      intro st
      have h1 := ih (processOneEvent f now st e)
      have h2 := processOneEvent_count f now st e
      have hstep : processEvents f now (e :: es) st
          = processEvents f now es (processOneEvent f now st e) := rfl
      rw [hstep, List.length_cons]
      omega

/-- When every event carrying a key fails, the loop never records that key
in the dedup ledger. -/
theorem processEvents_no_entry (f : WebhookEvent → Bool) (now : Int) (k : String) :
    ∀ (es : List WebhookEvent) (st : IngestState),
      mapLookup st.map k = none →
      (∀ e' ∈ es, eventKey e' = k → f e' = true) →
      mapLookup (processEvents f now es st).map k = none := by
  intro es
  induction es with
  | nil => intro st h _; exact h
  | cons e es ih =>
      intro st h hall
      show mapLookup (processEvents f now es (processOneEvent f now st e)).map k = none
      apply ih
      · unfold processOneEvent
        have hd := mapLookup_isEventProcessed_none st.map now k (eventKey e) h
        by_cases h1 : (isEventProcessed st.map now (eventKey e)).1 = true
        · simp only [h1, if_true]
          exact hd
        · simp only [h1, if_false, Bool.not_eq_true] at *
          by_cases h2 : f e = true
          · simp only [h1, h2, if_true, if_false]
            exact hd
          · have hke : eventKey e ≠ k := fun hk =>
              h2 (hall e (List.mem_cons_self _ _) hk)
            simp only [h1, h2, if_false]
            exact mapLookup_mark_other_none _ now k (eventKey e) hke hd
      · exact fun e' he' hk => hall e' (List.mem_cons_of_mem _ he') hk

/- ### Webhook claims -/

/-- C3: when the signature header is missing, or present but failing
verification against the HMAC of the raw body, the endpoint answers 401
and performs no side effect — the dedup map is untouched and no event is
processed, no handler invoked, no webhookEvent row or ledger entry
written. -/
theorem C3_invalid_signature_rejected_without_side_effects
    (secret : Option String) (hmacB64 : String → String → String)
    (b64decode : String → List Nat) (handlerFails : WebhookEvent → Bool)
    (now : Int) (sigHeader : Option String) (body : String)
    (parse : ParsedBody) (map : EventMap)
    (hbad : ∀ sig, sigHeader = some sig →
      verifyWebhookSignature secret hmacB64 b64decode body sig = false) :
    statusOf (webhookPOST secret hmacB64 b64decode handlerFails now
        sigHeader body parse map).response = 401 ∧
    (webhookPOST secret hmacB64 b64decode handlerFails now
        sigHeader body parse map).state
      = ⟨map, 0, 0, 0, 0, 0, 0⟩ := by
  cases sigHeader with
  | none => exact ⟨rfl, rfl⟩
  | some sig =>
      unfold webhookPOST
      dsimp only
      rw [hbad sig rfl]
      exact ⟨rfl, rfl⟩

/-- Witness for C3 with a concrete non-matching signature. -/
theorem C3_witness :
    statusOf (webhookPOST (some "whsec") (fun _ _ => "GOOD")
        (fun s => s.toList.map Char.toNat) (fun _ => false) 0 (some "BAD") "body"
        (.events [⟨"r1", "INVOICE", "CREATE", "d", "t"⟩]) []).response = 401 :=
  (C3_invalid_signature_rejected_without_side_effects (some "whsec")
    (fun _ _ => "GOOD") (fun s => s.toList.map Char.toNat) (fun _ => false) 0
    (some "BAD") "body" (.events [⟨"r1", "INVOICE", "CREATE", "d", "t"⟩]) []
    (by intro sig hs; cases hs; decide)).1

/-- C7: delivering the same event twice within the 24-hour window produces
exactly one handler invocation, one ledger write and one webhookEvent row:
the first delivery reports it processed, the second reports it only as a
duplicate with no further side effect. -/
theorem C7_duplicate_delivery_idempotent
    (secret : Option String) (hmacB64 : String → String → String)
    (b64decode : String → List Nat) (handlerFails : WebhookEvent → Bool)
    (now₁ now₂ : Int) (sig₁ sig₂ body₁ body₂ : String) (e : WebhookEvent)
    (m₀ : EventMap)
    (hver₁ : verifyWebhookSignature secret hmacB64 b64decode body₁ sig₁ = true)
    (hver₂ : verifyWebhookSignature secret hmacB64 b64decode body₂ sig₂ = true)
    (hnew : mapLookup m₀ (eventKey e) = none)
    (hok : handlerFails e = false)
    (hdisp : dispatchesHandler e = true)
    (hwin : now₂ - now₁ ≤ EVENT_EXPIRY)
    (hsize : m₀.length < 1000) :
    (webhookPOST secret hmacB64 b64decode handlerFails now₁ (some sig₁) body₁
        (.events [e]) m₀).response = .ok 1 0 ∧
    (webhookPOST secret hmacB64 b64decode handlerFails now₁ (some sig₁) body₁
        (.events [e]) m₀).state
      = ⟨m₀ ++ [(eventKey e, now₁)], 1, 0, 0, 1, 1, 1⟩ ∧
    (webhookPOST secret hmacB64 b64decode handlerFails now₂ (some sig₂) body₂
        (.events [e]) (m₀ ++ [(eventKey e, now₁)])).response = .ok 0 0 ∧
    (webhookPOST secret hmacB64 b64decode handlerFails now₂ (some sig₂) body₂
        (.events [e]) (m₀ ++ [(eventKey e, now₁)])).state
      = ⟨m₀ ++ [(eventKey e, now₁)], 0, 0, 1, 0, 0, 0⟩ := by
  have hfind : m₀.find? (fun p => p.1 = eventKey e) = none := by
    have := hnew
    unfold mapLookup at this
    exact Option.map_eq_none'.mp this
  have hlen : ¬ 1000 < m₀.length + 1 := by omega
  have hmark : markEventProcessed m₀ now₁ (eventKey e)
      = m₀ ++ [(eventKey e, now₁)] := by
    unfold markEventProcessed mapSet
    rw [hfind]
    simp [List.length_append, hlen]
  have hpe1 : processEvents handlerFails now₁ [e] ⟨m₀, 0, 0, 0, 0, 0, 0⟩
      = ⟨m₀ ++ [(eventKey e, now₁)], 1, 0, 0, 1, 1, 1⟩ := by
    show processOneEvent handlerFails now₁ ⟨m₀, 0, 0, 0, 0, 0, 0⟩ e
      = ⟨m₀ ++ [(eventKey e, now₁)], 1, 0, 0, 1, 1, 1⟩
    unfold processOneEvent isEventProcessed
    dsimp only
    rw [hnew]
    dsimp only
    rw [hok, hdisp, hmark]
    rfl
  have hdup : mapLookup (m₀ ++ [(eventKey e, now₁)]) (eventKey e) = some now₁ :=
    mapLookup_append_self m₀ (eventKey e) now₁ hnew
  have hpe2 : processEvents handlerFails now₂ [e]
      ⟨m₀ ++ [(eventKey e, now₁)], 0, 0, 0, 0, 0, 0⟩
      = ⟨m₀ ++ [(eventKey e, now₁)], 0, 0, 1, 0, 0, 0⟩ := by
    show processOneEvent handlerFails now₂
        ⟨m₀ ++ [(eventKey e, now₁)], 0, 0, 0, 0, 0, 0⟩ e
      = ⟨m₀ ++ [(eventKey e, now₁)], 0, 0, 1, 0, 0, 0⟩
    unfold processOneEvent isEventProcessed
    dsimp only
    rw [hdup]
    dsimp only
    rw [if_neg (by omega : ¬ now₂ - now₁ > EVENT_EXPIRY)]
    rfl
  have hw1 : webhookPOST secret hmacB64 b64decode handlerFails now₁ (some sig₁)
      body₁ (.events [e]) m₀
      = ⟨.ok 1 0, ⟨m₀ ++ [(eventKey e, now₁)], 1, 0, 0, 1, 1, 1⟩⟩ := by
    unfold webhookPOST
    dsimp only
    rw [hver₁]
    rw [hpe1]
    rfl
  have hw2 : webhookPOST secret hmacB64 b64decode handlerFails now₂ (some sig₂)
      body₂ (.events [e]) (m₀ ++ [(eventKey e, now₁)])
      = ⟨.ok 0 0, ⟨m₀ ++ [(eventKey e, now₁)], 0, 0, 1, 0, 0, 0⟩⟩ := by
    unfold webhookPOST
    dsimp only
    rw [hver₂]
    rw [hpe2]
    rfl
  exact ⟨by rw [hw1], by rw [hw1], by rw [hw2], by rw [hw2]⟩

/-- Witness for C7 at a concrete duplicated event. -/
theorem C7_witness :
    (webhookPOST (some "whsec") (fun _ _ => "SIG") (fun s => s.toList.map Char.toNat)
        (fun _ => false) 0 (some "SIG") "b"
        (.events [⟨"r1", "INVOICE", "CREATE", "d", "t"⟩]) []).response = .ok 1 0 :=
  (C7_duplicate_delivery_idempotent (some "whsec") (fun _ _ => "SIG")
    (fun s => s.toList.map Char.toNat) (fun _ => false) 0 100 "SIG" "SIG" "b" "b"
    ⟨"r1", "INVOICE", "CREATE", "d", "t"⟩ []
    (by decide) (by decide) rfl rfl rfl (by decide) (by decide)).1

/-- Counterexample to C8: the HTTP response body carries only the processed
and failed counts — at a two-event delivery whose second event is a
duplicate the response is `ok 1 0`, and no field of it yields the claimed
totalEvents of 2. -/
theorem C8_response_lacks_totalEvents :
    (webhookPOST (some "whsec") (fun _ _ => "SIG") (fun s => s.toList.map Char.toNat)
        (fun _ => false) 0 (some "SIG") "body"
        (.events [⟨"r1", "INVOICE", "CREATE", "d", "t"⟩,
                  ⟨"r1", "INVOICE", "CREATE", "d", "t"⟩]) []).response = .ok 1 0 ∧
    (webhookPOST (some "whsec") (fun _ _ => "SIG") (fun s => s.toList.map Char.toNat)
        (fun _ => false) 0 (some "SIG") "body"
        (.events [⟨"r1", "INVOICE", "CREATE", "d", "t"⟩,
                  ⟨"r1", "INVOICE", "CREATE", "d", "t"⟩]) []).state.processed
      + (webhookPOST (some "whsec") (fun _ _ => "SIG") (fun s => s.toList.map Char.toNat)
        (fun _ => false) 0 (some "SIG") "body"
        (.events [⟨"r1", "INVOICE", "CREATE", "d", "t"⟩,
                  ⟨"r1", "INVOICE", "CREATE", "d", "t"⟩]) []).state.failed
      ≠ 2 := by
  refine ⟨?_, ?_⟩ <;> decide

/-- C8 (amended): per-event failures are isolated — a failing handler
leaves no dedup-ledger entry for its event key (as long as no other event
in the batch records the same key), the batch keeps going so every event
is accounted processed, failed or duplicate, and the HTTP response is a
success envelope reporting the processed and failed counts (totalEvents
appears only in the monitoring log, not in the response). -/
theorem C8_per_event_failure_isolated
    (secret : Option String) (hmacB64 : String → String → String)
    (b64decode : String → List Nat) (handlerFails : WebhookEvent → Bool)
    (now : Int) (sig body : String) (es : List WebhookEvent) (map : EventMap)
    (hver : verifyWebhookSignature secret hmacB64 b64decode body sig = true) :
    statusOf (webhookPOST secret hmacB64 b64decode handlerFails now (some sig)
        body (.events es) map).response = 200 ∧
    (webhookPOST secret hmacB64 b64decode handlerFails now (some sig)
        body (.events es) map).response
      = .ok (webhookPOST secret hmacB64 b64decode handlerFails now (some sig)
          body (.events es) map).state.processed
          (webhookPOST secret hmacB64 b64decode handlerFails now (some sig)
            body (.events es) map).state.failed ∧
    (webhookPOST secret hmacB64 b64decode handlerFails now (some sig)
        body (.events es) map).state.processed
      + (webhookPOST secret hmacB64 b64decode handlerFails now (some sig)
          body (.events es) map).state.failed
      + (webhookPOST secret hmacB64 b64decode handlerFails now (some sig)
          body (.events es) map).state.duplicates = es.length ∧
    ∀ e ∈ es, handlerFails e = true → mapLookup map (eventKey e) = none →
      (∀ e' ∈ es, eventKey e' = eventKey e → handlerFails e' = true) →
      mapLookup (webhookPOST secret hmacB64 b64decode handlerFails now (some sig)
          body (.events es) map).state.map (eventKey e) = none := by
  have hw : webhookPOST secret hmacB64 b64decode handlerFails now (some sig)
      body (.events es) map
      = ⟨.ok (processEvents handlerFails now es ⟨map, 0, 0, 0, 0, 0, 0⟩).processed
            (processEvents handlerFails now es ⟨map, 0, 0, 0, 0, 0, 0⟩).failed,
         processEvents handlerFails now es ⟨map, 0, 0, 0, 0, 0, 0⟩⟩ := by
    unfold webhookPOST
    dsimp only
    rw [hver]
    rfl
  rw [hw]
  refine ⟨rfl, rfl, ?_, ?_⟩
  · have h := processEvents_counts handlerFails now es ⟨map, 0, 0, 0, 0, 0, 0⟩
    simpa using h
  · intro e _ _ h0 hall
    exact processEvents_no_entry handlerFails now (eventKey e) es
      ⟨map, 0, 0, 0, 0, 0, 0⟩ h0 hall

/-- Witness for the amended C8 with one failing and one succeeding event. -/
theorem C8_witness :
    statusOf (webhookPOST (some "whsec") (fun _ _ => "SIG")
        (fun s => s.toList.map Char.toNat) (fun e => e.resourceId = "bad") 0
        (some "SIG") "body"
        (.events [⟨"bad", "INVOICE", "CREATE", "d", "t"⟩,
                  ⟨"r2", "INVOICE", "CREATE", "d", "t"⟩]) []).response = 200 :=
  (C8_per_event_failure_isolated (some "whsec") (fun _ _ => "SIG")
    (fun s => s.toList.map Char.toNat) (fun e => e.resourceId = "bad") 0
    "SIG" "body"
    [⟨"bad", "INVOICE", "CREATE", "d", "t"⟩, ⟨"r2", "INVOICE", "CREATE", "d", "t"⟩]
    [] (by decide)).1

end XeroMCP
